import Mathlib

/-!
# Shallow embedding of the UltraSONIC transactional execution layer

This file embeds, in Lean 4, the data model and the algorithms of the
UltraSONIC crate (`src/state.rs`, `src/operation.rs`, `src/codex.rs`,
`src/issue.rs`, `src/isa/*.rs`) and proves properties of the embedded
definitions.

Modelling conventions:

* Machine integers (`u8`, `u16`, `i64`, `u256`) are modelled as `Nat`/`Int`.
  Overflow is irrelevant for the properties below: the only in-scope
  arithmetic is the `u16` iterator increment, which the source performs only
  while the iterator is strictly below the length of a length-confined list
  (`SmallVec`, at most `0xFFFF` elements), so it never wraps.
* `fe256` (a raw 256-bit value used as a field element container) is a `Nat`;
  byte conversions are little-endian, matching `u256::to_le_bytes`.
* SHA-256 based tagged commitments (`CommitId` from the external
  `commit_verify` crate) are modelled freely: a commitment is represented by
  its domain-separation tag together with the exact sequence of absorbed
  items, and the final injective compression into 32 bytes is left abstract.
  Likewise a Merkle root absorbed by `commit_to_merkle` is represented freely
  by the list it is computed from.
* Raw (non-commitment) 32-byte identifiers that are mere data for the
  algorithms here (`ContractId`, `LibId`) are opaque `Nat` values.
* The zk-AluVM virtual machine is an external crate; `Codex::verify` only
  observes it through `exec` calls and the `E`-register file, so VM script
  execution is an explicit functional parameter transforming the register
  file, and the register microcode (`set`/`get`/`reset`) is embedded.
-/

namespace Ultrasonic

/-- Execution status of a zk-AluVM run (`aluvm::alu::regs::Status`). -/
inductive Status where
  | ok
  | fail
deriving DecidableEq, Repr

/-- The 256-bit field-element registers of the GFA core (`aluvm::RegE`). -/
inductive RegE where
  | E1 | E2 | E3 | E4 | E5 | E6 | E7 | E8
  | EA | EB | EC | ED | EE | EF | EG | EH
deriving DecidableEq, Repr

/-- A raw 256-bit value used as a field element (`aluvm::fe256`).
The crate under verification never performs modular arithmetic on these
directly, so the value is a plain natural number. -/
abbrev fe256 := Nat

/-- The register file of the external GFA core (`aluvm::GfaCore`), restricted
to the part observed by this crate: the partial map from `E`-registers to
field elements. -/
structure GfaCore where
  regs : RegE → Option fe256

/-- `GfaCore::set` / `GfaCore::put`: store an optional value in a register. -/
def GfaCore.put (c : GfaCore) (r : RegE) (v : Option fe256) : GfaCore :=
  ⟨fun r' => if r' = r then v else c.regs r'⟩

/-- `GfaCore::get`: read a register. -/
def GfaCore.get (c : GfaCore) (r : RegE) : Option fe256 := c.regs r

/-- The register file of a freshly instantiated (or reset) core: all
`E`-registers are empty. -/
def GfaCore.initial : GfaCore := ⟨fun _ => none⟩

/-- Authorization token controlling destructible-cell access
(`AuthToken` in `src/state.rs`): a 30-byte value stored in a field element. -/
structure AuthToken where
  fe : fe256
deriving DecidableEq, Repr

/-- `AuthToken::to_fe256`. -/
def AuthToken.toFe256 (a : AuthToken) : fe256 := a.fe

/-- Little-endian byte-list value (`u256::from_le_bytes` composed over a
byte list). -/
def fromLeBytes (bytes : List Nat) : Nat :=
  bytes.foldr (fun b acc => b + 256 * acc) 0

/-- Little-endian encoding of a natural into `w` bytes
(`u256::to_le_bytes` for `w = 32`). -/
def toLeBytes : Nat → Nat → List Nat
  | 0, _ => []
  | w + 1, n => n % 256 :: toLeBytes w (n / 256)

/-- `AuthToken::from_byte_array`: place 30 bytes into the low 30 bytes of a
32-byte little-endian buffer and read it as a field element. -/
def AuthToken.fromByteArray (bytes : List Nat) : AuthToken :=
  ⟨fromLeBytes (bytes ++ [0, 0])⟩

/-- `AuthToken::to_byte_array`: take the low 30 bytes of the little-endian
encoding of the field element. -/
def AuthToken.toByteArray (a : AuthToken) : List Nat :=
  (toLeBytes 32 a.fe).take 30

/-- A value stored in a single memory cell (`StateValue` in `src/state.rs`):
a tagged tuple of zero to four field elements. -/
inductive StateValue where
  | none
  | single (first : fe256)
  | double (first second : fe256)
  | triple (first second third : fe256)
  | quadripple (first second third fourth : fe256)
deriving DecidableEq, Repr

/-- `StateValue::get`: the element at a position, if present. -/
def StateValue.get : StateValue → Nat → Option fe256
  | .single first, 0 => some first
  | .double first _, 0 => some first
  | .triple first _ _, 0 => some first
  | .quadripple first _ _ _, 0 => some first
  | .double _ second, 1 => some second
  | .triple _ second _, 1 => some second
  | .quadripple _ second _ _, 1 => some second
  | .triple _ _ third, 2 => some third
  | .quadripple _ _ third _, 2 => some third
  | .quadripple _ _ _ fourth, 3 => some fourth
  | _, _ => Option.none

/-- `Default for StateValue` is the `None` variant. -/
def StateValue.default : StateValue := .none

/-- A call site inside a VM code library: a library id (opaque 32-byte
hash, modelled as `Nat`) and an offset.  `src/isa/exec.rs` additionally
reads an auxiliary state value `lock.aux` and a projection `lock.script`
from the lock stored in a destructible cell (`VmContext::input_lock_aux`,
`VmContext::input_auth_token`), while `src/state.rs` declares the lock as a
bare `aluvm::alu::LibSite` — the two files belong to different crate
versions.  The model carries the `aux` field so the accessors of
`src/isa/exec.rs` are expressible; `src/codex.rs` and `src/state.rs` never
touch it, and `lock.script` is the call-site part `(libId, offset)`. -/
structure LibSite where
  libId : Nat
  offset : Nat
  aux : StateValue
deriving DecidableEq, Repr

/-- Read-once access-controlled memory cell (`StateCell` in `src/state.rs`). -/
structure StateCell where
  data : StateValue
  auth : AuthToken
  lock : Option LibSite
deriving DecidableEq, Repr

/-- Raw byte blob attached to immutable cells (`RawData`). -/
structure RawData where
  bytes : List Nat
deriving DecidableEq, Repr

/-- State kept in immutable memory cells (`StateData` in `src/state.rs`). -/
structure StateData where
  value : StateValue
  raw : Option RawData
deriving DecidableEq, Repr

/-- Contract identifier (`ContractId` in `src/contract.rs`): a 32-byte
value, opaque data for the verifier.  Modelled as the natural number given
by the little-endian reading of the bytes. -/
abbrev ContractId := Nat

/-- `ContractId::from_byte_array([0xFF; 32])`: the placeholder contract id
whose 32 bytes are all `0xFF`, i.e. the value `2^256 - 1`. -/
def placeholderContractId : ContractId := 2 ^ 256 - 1

/-- Identifier of a contract method call (`CallId = u16`). -/
abbrev CallId := Nat

/-- VM core configuration (`aluvm::alu::CoreConfig`). -/
structure CoreConfig where
  halt : Bool
  complexityLim : Option Nat
deriving DecidableEq, Repr

/-- Identity of a developer / issuer (`Identity` from the upstream
`strict_encoding` stack), opaque text. -/
abbrev Identity := String

/-- Codex: the commitment to contract terms (`Codex` in `src/codex.rs`).
`version` is `ReservedBytes<1>`, a fixed zero byte, modelled as `Unit`;
`verifiers` is `TinyOrdMap<CallId, LibSite>`, modelled as an association
list looked up by key. -/
structure Codex where
  version : Unit
  name : String
  developer : Identity
  timestamp : Int
  fieldOrder : Nat
  inputConfig : CoreConfig
  verificationConfig : CoreConfig
  verifiers : List (CallId × LibSite)

/-- Unique codex identifier (`CodexId`): a tagged commitment to all codex
data (strict commitment strategy).  The SHA-256 finalization is external and
injective by assumption, so the id is represented freely by the domain tag
and the committed codex itself. -/
inductive CodexId where
  | commit (tag : String) (codex : Codex)

/-- `CommitmentId for CodexId`: the domain-separation tag. -/
def CodexId.TAG : String := "urn:ubideco:sonic:codex#2025-05-15"

/-- `Codex::codex_id` (= `commit_id` under the strict strategy). -/
def Codex.codexId (c : Codex) : CodexId := .commit CodexId.TAG c

/-- Consensus layer used by a contract (`Consensus` in `src/issue.rs`). -/
inductive Consensus where
  | none
  | bitcoin
  | liquid
  | prime
deriving DecidableEq, Repr

/-- Contract name (`ContractName` in `src/issue.rs`). -/
inductive ContractName where
  | unnamed
  | named (name : String)
deriving DecidableEq, Repr

/-- Metadata about the contract (`ContractMeta` in `src/issue.rs`);
`reserved` is `ReservedBytes<14>`, modelled as `Unit`. -/
structure ContractMeta where
  testnet : Bool
  consensus : Consensus
  reserved : Unit
  timestamp : Int
  name : ContractName
  issuer : Identity
deriving DecidableEq, Repr

/-!
## The commitment stream

`CommitId::commit_id` (external crate `commit_verify`) runs the structure's
`commit_encode` against a hashing engine initialized with the id type's
domain tag.  The engine is modelled freely: it records the exact sequence of
absorbed items.  `commit_to_serialized` absorbs a strict-serialized value;
`commit_to_merkle` absorbs the Merkle root of a list, represented freely by
the list itself (per-element leaf hashing and the balanced tree are internal
to `commit_verify`).  Because a Merkle leaf for an `Input` contains a
`CellAddr`, which contains an `Opid`, which is itself a commitment, the
types below are mutually inductive.
-/

mutual

/-- Unique operation identifier (`Opid` in `src/operation.rs`): a tagged
commitment, represented freely by its tag and absorbed stream. -/
inductive Opid where
  | commit (tag : String) (steps : List Absorption)

/-- Address of a memory cell (`CellAddr` in `src/operation.rs`). -/
inductive CellAddr where
  | mk (opid : Opid) (pos : Nat)

/-- Operation input for destructible state (`Input` in `src/operation.rs`). -/
inductive Input where
  | mk (addr : CellAddr) (witness : StateValue)

/-- A strict-serialized value absorbed by `CommitEngine::commit_to_serialized`,
covering the value types this crate serializes into commitments. -/
inductive SerVal where
  /-- A `ReservedBytes<1>` version field (a fixed zero byte). -/
  | reservedByte
  | contractId (v : ContractId)
  | callId (v : CallId)
  | fe (v : fe256)
  | codexId (v : CodexId)
  | meta (v : ContractMeta)
  | opid (v : Opid)

/-- One item absorbed by the commitment engine. -/
inductive Absorption where
  | ser (v : SerVal)
  /-- `commit_to_merkle` over a `SmallVec<Input>`. -/
  | merkleInputs (l : List Input)
  /-- `commit_to_merkle` over a `SmallVec<CellAddr>`. -/
  | merkleAddrs (l : List CellAddr)
  /-- `commit_to_merkle` over a `SmallVec<StateCell>`. -/
  | merkleCells (l : List StateCell)
  /-- `commit_to_merkle` over a `SmallVec<StateData>`. -/
  | merkleData (l : List StateData)

end

/-- Field accessor for `CellAddr.opid`. -/
def CellAddr.opid : CellAddr → Opid
  | .mk opid _ => opid

/-- Field accessor for `CellAddr.pos`. -/
def CellAddr.pos : CellAddr → Nat
  | .mk _ pos => pos

/-- Field accessor for `Input.addr`. -/
def Input.addr : Input → CellAddr
  | .mk addr _ => addr

/-- Field accessor for `Input.witness`. -/
def Input.witness : Input → StateValue
  | .mk _ witness => witness

/-- The free commitment engine (`commit_verify::CommitEngine`): the ordered
stream of absorbed items. -/
structure CommitEngine where
  steps : List Absorption

/-- `CommitEngine::commit_to_serialized`. -/
def CommitEngine.commitToSerialized (e : CommitEngine) (v : SerVal) : CommitEngine :=
  ⟨e.steps ++ [.ser v]⟩

/-- `CommitEngine::commit_to_merkle` over a list of operation inputs. -/
def CommitEngine.commitToMerkleInputs (e : CommitEngine) (l : List Input) : CommitEngine :=
  ⟨e.steps ++ [.merkleInputs l]⟩

/-- `CommitEngine::commit_to_merkle` over a list of cell addresses. -/
def CommitEngine.commitToMerkleAddrs (e : CommitEngine) (l : List CellAddr) : CommitEngine :=
  ⟨e.steps ++ [.merkleAddrs l]⟩

/-- `CommitEngine::commit_to_merkle` over a list of destructible cells. -/
def CommitEngine.commitToMerkleCells (e : CommitEngine) (l : List StateCell) : CommitEngine :=
  ⟨e.steps ++ [.merkleCells l]⟩

/-- `CommitEngine::commit_to_merkle` over a list of immutable state data. -/
def CommitEngine.commitToMerkleData (e : CommitEngine) (l : List StateData) : CommitEngine :=
  ⟨e.steps ++ [.merkleData l]⟩

/-- Operation under a contract (`Operation` in `src/operation.rs`).
`version` is `ReservedBytes<1>` (a fixed zero byte), modelled as `Unit`;
the four `SmallVec` lists are plain lists. -/
structure Operation where
  version : Unit
  contractId : ContractId
  callId : CallId
  nonce : fe256
  destructibleIn : List Input
  immutableIn : List CellAddr
  destructibleOut : List StateCell
  immutableOut : List StateData

/-- `CommitmentId for Opid`: the domain-separation tag. -/
def Opid.TAG : String := "urn:ubideco:ultrasonic:operation#2024-11-14"

/-- `CommitEncode for Operation::commit_encode`: absorb the scalar fields
and the four Merkle roots, in declaration order. -/
def Operation.commitEncode (op : Operation) (e : CommitEngine) : CommitEngine :=
  (((((((e.commitToSerialized .reservedByte).commitToSerialized
      (.contractId op.contractId)).commitToSerialized
      (.callId op.callId)).commitToSerialized
      (.fe op.nonce)).commitToMerkleInputs
      op.destructibleIn).commitToMerkleAddrs
      op.immutableIn).commitToMerkleCells
      op.destructibleOut).commitToMerkleData
      op.immutableOut

/-- `Operation::opid` (= `commit_id`): run `commit_encode` on an engine
initialized with the `Opid` domain tag and finalize. -/
def Operation.opid (op : Operation) : Opid :=
  .commit Opid.TAG (op.commitEncode ⟨[]⟩).steps

/-- Contract genesis (`Genesis` in `src/operation.rs`).  `version` is
`ReservedBytes<1>` and `blank1`/`blank2` are `ReservedBytes<2>` (zero-length
input list placeholders), all modelled as `Unit`. -/
structure Genesis where
  version : Unit
  codexId : CodexId
  callId : CallId
  nonce : fe256
  blank1 : Unit
  blank2 : Unit
  destructibleOut : List StateCell
  immutableOut : List StateData

/-- `Genesis::to_operation`: promote the genesis to an operation under a
contract id, with empty input lists. -/
def Genesis.toOperation (g : Genesis) (contractId : ContractId) : Operation :=
  { version := g.version
    contractId := contractId
    callId := g.callId
    nonce := g.nonce
    destructibleIn := []
    immutableIn := []
    destructibleOut := g.destructibleOut
    immutableOut := g.immutableOut }

/-- `Genesis::opid`: the operation id of the promoted genesis. -/
def Genesis.opid (g : Genesis) (contractId : ContractId) : Opid :=
  (g.toOperation contractId).opid

/-- Information on the issue of a contract (`Issue` in `src/issue.rs`). -/
structure Issue where
  version : Unit
  meta : ContractMeta
  codex : Codex
  genesis : Genesis

/-- `CommitmentId for ContractId`: the domain-separation tag. -/
def ContractIdTAG : String := "urn:ubideco:sonic:contract#2024-11-16"

/-- `CommitEncode for Issue::commit_encode`: absorb the version, the
metadata, the codex id, and the genesis opid computed under the all-`0xFF`
placeholder contract id. -/
def Issue.commitEncode (iss : Issue) (e : CommitEngine) : CommitEngine :=
  (((e.commitToSerialized .reservedByte).commitToSerialized
      (.meta iss.meta)).commitToSerialized
      (.codexId iss.codex.codexId)).commitToSerialized
      (.opid (iss.genesis.opid placeholderContractId))

/-- The tagged commitment produced by `Issue::contract_id` (= `commit_id`).
In the source the result is compressed to the 32-byte `ContractId`; the
compression is external and injective by assumption, so the commitment is
represented by its tag and absorbed stream. -/
structure ContractCommit where
  tag : String
  steps : List Absorption

/-- `Issue::contract_id`. -/
def Issue.contractId (iss : Issue) : ContractCommit :=
  ⟨ContractIdTAG, (iss.commitEncode ⟨[]⟩).steps⟩

/-- Provably verified operation (`VerifiedOperation` in
`src/operation.rs`): the cached opid paired with the operation.
Constructed by `VerifiedOperation::new_unchecked` inside `Codex::verify`. -/
structure VerifiedOperation where
  opid : Opid
  operation : Operation

/-!
## The operation verifier (`Codex::verify`, `src/codex.rs`)

The two VMs instantiated by `verify` belong to the external zk-AluVM crate;
`verify` observes them only through `Vm::exec` (and the register file before
and after).  Script execution is therefore passed in as a function from the
pre-call register file (and call site) to the run status and the post-call
register file; the library-resolver closure is absorbed into it.
-/

/-- Verification errors of `Codex::verify` (`CallError` in `src/codex.rs`). -/
inductive CallError where
  | wrongContract (expected found : ContractId)
  | notFound (callId : CallId)
  | noReadOnceInput (addr : CellAddr)
  | noImmutableInput (addr : CellAddr)
  | lock (code : Option fe256)
  | script (code : fe256)
  | scriptUnspecified

/-- Read access to the contract state (`Memory` trait in `src/codex.rs`). -/
structure Memory where
  destructible : CellAddr → Option StateCell
  immutable : CellAddr → Option StateValue

/-- The context value constructed by `Codex::verify` for the Phase-2 VM
(`src/codex.rs` lines 234–239).  Note: it has no `witness` field and its
`destructible_input` holds the bare `cell.data` state values, unlike the
`VmContext` type declared in `src/isa/exec.rs` (see `VmContext` below),
against which this construction does not even typecheck. -/
structure CodexVmContext where
  destructibleInput : List StateValue
  immutableInput : List StateValue
  destructibleOutput : List StateCell
  immutableOutput : List StateData

/-- `TinyOrdMap::get` on `Codex::verifiers`. -/
def Codex.getVerifier (c : Codex) (callId : CallId) : Option LibSite :=
  (c.verifiers.find? (fun p => p.1 = callId)).map Prod.snd

/-- The witness-loading loop of Phase 1 (`src/codex.rs` lines 195–203):
for each register in `[E2, E3, E4, E5]` in order, put the witness element
with the matching index, breaking at the first absent element. -/
def loadWitnessRegs : List RegE → Nat → StateValue → GfaCore → GfaCore
  | [], _, _, core => core
  | reg :: rest, no, w, core =>
    match w.get no with
    | Option.none => core
    | some el => loadWitnessRegs rest (no + 1) w (core.put reg (some el))

/-- Phase 1 of `Codex::verify` over `destructible_in` (`src/codex.rs` lines
183–215): resolve each input cell, run its lock script (if any) on the
persistent input VM, and accumulate the resolved `cell.data` values. -/
def Codex.phase1Destructible (memory : Memory)
    (execLock : GfaCore → LibSite → Status × GfaCore) :
    List Input → GfaCore → List StateValue →
    Except CallError (GfaCore × List StateValue)
  | [], vm, acc => .ok (vm, acc)
  | input :: rest, vm, acc =>
    match memory.destructible input.addr with
    | Option.none => .error (.noReadOnceInput input.addr)
    | some cell =>
      match cell.lock with
      | some lock =>
        let vm1 := loadWitnessRegs [RegE.E2, RegE.E3, RegE.E4, RegE.E5] 0 input.witness
          (vm.put RegE.E1 (some cell.auth.toFe256))
        match execLock vm1 lock with
        | (Status.fail, vm2) => .error (.lock (vm2.get RegE.E8))
        | (Status.ok, _) =>
          Codex.phase1Destructible memory execLock rest GfaCore.initial (acc ++ [cell.data])
      | Option.none => Codex.phase1Destructible memory execLock rest vm (acc ++ [cell.data])

/-- Phase 1 of `Codex::verify` over `immutable_in` (`src/codex.rs` lines
218–227): resolve each address, accumulating the state values. -/
def Codex.phase1Immutable (memory : Memory) :
    List CellAddr → List StateValue → Except CallError (List StateValue)
  | [], acc => .ok acc
  | addr :: rest, acc =>
    match memory.immutable addr with
    | Option.none => .error (.noImmutableInput addr)
    | some data => Codex.phase1Immutable memory rest (acc ++ [data])

/-- `Codex::verify` (`src/codex.rs` lines 151–253): the contract-binding
check, Phase 1 over the inputs, and the Phase-2 main verification run.
`execLock` stands for `Vm::<gfa::Instr>::exec` of the input VM and
`execMain` for `Vm::<Instr>::exec` of the main VM (both external); a fresh
VM starts from the empty register file `GfaCore.initial`, and `Vm::reset`
between inputs restores it. -/
def Codex.verify (codex : Codex) (contractId : ContractId) (operation : Operation)
    (memory : Memory)
    (execLock : GfaCore → LibSite → Status × GfaCore)
    (execMain : LibSite → CodexVmContext → Status × GfaCore) :
    Except CallError VerifiedOperation :=
  if operation.contractId ≠ contractId then
    .error (.wrongContract contractId operation.contractId)
  else
    match Codex.phase1Destructible memory execLock operation.destructibleIn
        GfaCore.initial [] with
    | .error e => .error e
    | .ok (_, destructibleInputs) =>
      match Codex.phase1Immutable memory operation.immutableIn [] with
      | .error e => .error e
      | .ok immutableInputs =>
        match codex.getVerifier operation.callId with
        | Option.none => .error (.notFound operation.callId)
        | some entryPoint =>
          let context : CodexVmContext :=
            ⟨destructibleInputs, immutableInputs,
              operation.destructibleOut, operation.immutableOut⟩
          match execMain entryPoint context with
          | (Status.ok, _) => .ok ⟨operation.opid, operation⟩
          | (Status.fail, vm) =>
            match vm.get RegE.E1 with
            | some errCode => .error (.script errCode)
            | Option.none => .error .scriptUnspecified

/-!
## The USONIC core extension and ISA (`src/isa/*.rs`)
-/

/-- Input/output side of an I/O category (`Io` in `src/isa/core.rs`). -/
inductive Io where
  | input
  | output
deriving DecidableEq, Repr

/-- Memory kind of an I/O category (`Mem` in `src/isa/core.rs`). -/
inductive MemKind where
  | readOnce
  | appendOnly
deriving DecidableEq, Repr

/-- Category of operation input or output data (`IoCat`). -/
structure IoCat where
  io : Io
  mem : MemKind
deriving DecidableEq, Repr

/-- `IoCat::IN_RO`. -/
def IoCat.IN_RO : IoCat := ⟨.input, .readOnce⟩
/-- `IoCat::IN_AO`. -/
def IoCat.IN_AO : IoCat := ⟨.input, .appendOnly⟩
/-- `IoCat::OUT_RO`. -/
def IoCat.OUT_RO : IoCat := ⟨.output, .readOnce⟩
/-- `IoCat::OUT_AO`. -/
def IoCat.OUT_AO : IoCat := ⟨.output, .appendOnly⟩

/-- `IoCat::index`: position of the category's iterator in the `UI` array. -/
def IoCat.index : IoCat → Fin 4
  | ⟨.input, .readOnce⟩ => 0
  | ⟨.input, .appendOnly⟩ => 1
  | ⟨.output, .readOnce⟩ => 2
  | ⟨.output, .appendOnly⟩ => 3

/-- Context object provided to the VM instance (`VmContext` in
`src/isa/exec.rs` lines 36–48), holding views over the operation's I/O and
the operation-level witness. -/
structure VmContext where
  witness : StateValue
  destructibleInput : List (Input × StateCell)
  immutableInput : List StateValue
  destructibleOutput : List StateCell
  immutableOutput : List StateData

/-- `VmContext::state_value`: the state value at `index` in the given
category, if the operation has that many entries. -/
def VmContext.stateValue (ctx : VmContext) (cat : IoCat) (index : Nat) : Option StateValue :=
  match cat with
  | ⟨.input, .readOnce⟩ => (ctx.destructibleInput.get? index).map (fun p => p.2.data)
  | ⟨.input, .appendOnly⟩ => ctx.immutableInput.get? index
  | ⟨.output, .readOnce⟩ => (ctx.destructibleOutput.get? index).map (fun c => c.data)
  | ⟨.output, .appendOnly⟩ => (ctx.immutableOutput.get? index).map (fun d => d.value)

/-- `VmContext::input_lock_aux`. -/
def VmContext.inputLockAux (ctx : VmContext) (index : Nat) : Option StateValue :=
  ((ctx.destructibleInput.get? index).bind (fun p => p.2.lock)).map (fun lock => lock.aux)

/-- `VmContext::input_witness`. -/
def VmContext.inputWitness (ctx : VmContext) (index : Nat) : Option StateValue :=
  (ctx.destructibleInput.get? index).map (fun p => p.1.witness)

/-- `VmContext::input_auth_token`: the prior cell's auth token and whether
the cell is script-locked. -/
def VmContext.inputAuthToken (ctx : VmContext) (index : Nat) : Option (AuthToken × Bool) :=
  (ctx.destructibleInput.get? index).map (fun p => (p.2.auth, p.2.lock.isSome))

/-- ALU core extension for the USONIC ISA (`UsonicCore` in
`src/isa/core.rs`): the four `u16` iterator registers and the GFA register
file. -/
structure UsonicCore where
  ui : Fin 4 → Nat
  gfa : GfaCore

/-- `UsonicCore::has_data` (`src/isa/microcode.rs`): whether a state value
remains at the current iterator position of the category. -/
def UsonicCore.hasData (c : UsonicCore) (cat : IoCat) (ctx : VmContext) : Bool :=
  (ctx.stateValue cat (c.ui cat.index)).isSome

/-- `UsonicCore::get_ui_inro`. -/
def UsonicCore.getUiInro (c : UsonicCore) : Nat := c.ui IoCat.IN_RO.index

/-- `UsonicCore::set_ea_ed`: store the (up to four) elements of a state
value into `EA`–`ED`, clearing the registers beyond the value's length. -/
def UsonicCore.setEaEd (c : UsonicCore) (data : StateValue) : UsonicCore :=
  { c with gfa := (((c.gfa.put .EA (data.get 0)).put .EB (data.get 1)).put .EC
      (data.get 2)).put .ED (data.get 3) }

/-- The private `UsonicCore::load_internal`: load an optional state value
into `EA`–`ED` and advance the category's iterator exactly when the value
was present. -/
def UsonicCore.loadInternal (c : UsonicCore) (cat : IoCat) (data : Option StateValue) :
    Bool × UsonicCore :=
  let co := data.isSome
  let c1 := c.setEaEd (data.getD StateValue.default)
  (co, if co then { c1 with ui := fun i => if i = cat.index then c1.ui i + 1 else c1.ui i }
    else c1)

/-- `UsonicCore::load`. -/
def UsonicCore.load (c : UsonicCore) (cat : IoCat) (ctx : VmContext) : Bool × UsonicCore :=
  c.loadInternal cat (ctx.stateValue cat (c.ui cat.index))

/-- `UsonicCore::set_ed_eb`: store an auth token and its lock flag into
`(EA, EB)`. -/
def UsonicCore.setEdEb (c : UsonicCore) (data : Option (AuthToken × Bool)) :
    Bool × UsonicCore :=
  let ea : Option fe256 := data.map (fun p => p.1.toFe256)
  let eb : Option fe256 := data.map (fun p => if p.2 then (1 : fe256) else 0)
  (data.isSome, { c with gfa := (c.gfa.put .EA ea).put .EB eb })

/-- `UsonicCore::set_ea_ed_opt`. -/
def UsonicCore.setEaEdOpt (c : UsonicCore) (data : Option StateValue) : Bool × UsonicCore :=
  (data.isSome, c.setEaEd (data.getD StateValue.default))

/-- `UsonicCore::reset`: zero the `UI` register of one category. -/
def UsonicCore.resetCat (c : UsonicCore) (cat : IoCat) : UsonicCore :=
  { c with ui := fun i => if i = cat.index then 0 else c.ui i }

/-- The USONIC instruction set (`UsonicInstr`): the sixteen payload-free
instructions handled by `src/isa/exec.rs`, `src/isa/microcode.rs` and
`src/isa/bytecode.rs`.  (The enum declared in `src/isa/instr.rs` belongs to
an older crate version and lacks the `LdW`/`LdIW`/`LdIL`/`LdIT` variants
those three files dispatch on.) -/
inductive UsonicInstr where
  | ckNxIRo
  | ckNxIAo
  | ckNxORo
  | ckNxOAo
  | ldW
  | ldIW
  | ldIL
  | ldIT
  | ldIRo
  | ldIAo
  | ldORo
  | ldOAo
  | rstIRo
  | rstIAo
  | rstORo
  | rstOAo
deriving DecidableEq, Repr

/-- The part of the base VM core observed by USONIC instruction execution
(`aluvm::alu::Core`): the `CO` status flag and the extension core. -/
structure Core where
  co : Status
  cx : UsonicCore

/-- `Core::set_co`. -/
def Core.setCo (c : Core) (s : Status) : Core := { c with co := s }

/-- `Instruction::exec` for `UsonicInstr` (`src/isa/exec.rs` lines
177–224).  Every arm continues with `ExecStep::Next`, so only the core
transformation is modelled. -/
def UsonicInstr.exec (i : UsonicInstr) (core : Core) (ctx : VmContext) : Core :=
  match i with
  | .ckNxIRo =>
    core.setCo (if core.cx.hasData IoCat.IN_RO ctx then .ok else .fail)
  | .ckNxIAo =>
    core.setCo (if core.cx.hasData IoCat.IN_AO ctx then .ok else .fail)
  | .ckNxORo =>
    core.setCo (if core.cx.hasData IoCat.OUT_RO ctx then .ok else .fail)
  | .ckNxOAo =>
    core.setCo (if core.cx.hasData IoCat.OUT_AO ctx then .ok else .fail)
  | .ldW => { core with cx := core.cx.setEaEd ctx.witness }
  | .ldIW =>
    let r := core.cx.setEaEdOpt (ctx.inputWitness core.cx.getUiInro)
    { core with cx := r.2 }.setCo (if r.1 then .ok else .fail)
  | .ldIL =>
    let r := core.cx.setEaEdOpt (ctx.inputLockAux core.cx.getUiInro)
    { core with cx := r.2 }.setCo (if r.1 then .ok else .fail)
  | .ldIT =>
    let r := core.cx.setEdEb (ctx.inputAuthToken core.cx.getUiInro)
    { core with cx := r.2 }.setCo (if r.1 then .ok else .fail)
  | .ldIRo =>
    let r := core.cx.load IoCat.IN_RO ctx
    { core with cx := r.2 }.setCo (if r.1 then .ok else .fail)
  | .ldIAo =>
    let r := core.cx.load IoCat.IN_AO ctx
    { core with cx := r.2 }.setCo (if r.1 then .ok else .fail)
  | .ldORo =>
    let r := core.cx.load IoCat.OUT_RO ctx
    { core with cx := r.2 }.setCo (if r.1 then .ok else .fail)
  | .ldOAo =>
    let r := core.cx.load IoCat.OUT_AO ctx
    { core with cx := r.2 }.setCo (if r.1 then .ok else .fail)
  | .rstIRo => { core with cx := core.cx.resetCat IoCat.IN_RO }
  | .rstIAo => { core with cx := core.cx.resetCat IoCat.IN_AO }
  | .rstORo => { core with cx := core.cx.resetCat IoCat.OUT_RO }
  | .rstOAo => { core with cx := core.cx.resetCat IoCat.OUT_AO }

/-- `Instruction::op_data_bytes` for `UsonicInstr` (`src/isa/exec.rs`):
zero for every instruction. -/
def UsonicInstr.opDataBytes : UsonicInstr → Nat
  | .ckNxIRo | .ckNxIAo | .ckNxORo | .ckNxOAo => 0
  | .ldW | .ldIW | .ldIL | .ldIT | .ldIRo | .ldIAo | .ldORo | .ldOAo => 0
  | .rstIRo | .rstIAo | .rstORo | .rstOAo => 0

/-- `Instruction::ext_data_bytes` for `UsonicInstr` (`src/isa/exec.rs`):
zero for every instruction. -/
def UsonicInstr.extDataBytes : UsonicInstr → Nat
  | .ckNxIRo | .ckNxIAo | .ckNxORo | .ckNxOAo => 0
  | .ldW | .ldIW | .ldIL | .ldIT | .ldIRo | .ldIAo | .ldORo | .ldOAo => 0
  | .rstIRo | .rstIAo | .rstORo | .rstOAo => 0

/-- `UsonicInstr::START` (`src/isa/bytecode.rs`): first USONIC opcode. -/
def UsonicInstr.START : Nat := 128

/-- `UsonicInstr::RSTOAO`, the largest per-variant opcode offset. -/
def UsonicInstr.RSTOAO : Nat := 15

/-- `UsonicInstr::END = START + RSTOAO`. -/
def UsonicInstr.LAST : Nat := UsonicInstr.START + UsonicInstr.RSTOAO

/-- `Bytecode::op_range` for `UsonicInstr`: the inclusive opcode range. -/
def UsonicInstr.opRange : Nat × Nat := (UsonicInstr.START, UsonicInstr.LAST)

/-- `Bytecode::opcode_byte` for `UsonicInstr` (`src/isa/bytecode.rs`):
`START` plus the per-variant offset constant. -/
def UsonicInstr.opcodeByte : UsonicInstr → Nat
  | .ckNxIRo => UsonicInstr.START + 0
  | .ckNxIAo => UsonicInstr.START + 1
  | .ckNxORo => UsonicInstr.START + 2
  | .ckNxOAo => UsonicInstr.START + 3
  | .ldW => UsonicInstr.START + 4
  | .ldIW => UsonicInstr.START + 5
  | .ldIL => UsonicInstr.START + 6
  | .ldIT => UsonicInstr.START + 7
  | .ldIRo => UsonicInstr.START + 8
  | .ldIAo => UsonicInstr.START + 9
  | .ldORo => UsonicInstr.START + 10
  | .ldOAo => UsonicInstr.START + 11
  | .rstIRo => UsonicInstr.START + 12
  | .rstIAo => UsonicInstr.START + 13
  | .rstORo => UsonicInstr.START + 14
  | .rstOAo => UsonicInstr.START + 15

/-- `Bytecode::code_byte_len` for `UsonicInstr`: one byte. -/
def UsonicInstr.codeByteLen (_ : UsonicInstr) : Nat := 1

/-- `Bytecode::encode_operands` for `UsonicInstr` writes nothing; the
encoding of an instruction is its opcode byte alone. -/
def UsonicInstr.encode (i : UsonicInstr) : List Nat := [i.opcodeByte]

/-- `Bytecode::decode_operands` for `UsonicInstr` (`src/isa/bytecode.rs`):
dispatch on `opcode - START`, reading no operand bytes.  The source is only
invoked with an opcode inside `op_range` (see the `Instr` dispatcher) and
hits `unreachable!` otherwise; out-of-range opcodes decode to `none`. -/
def UsonicInstr.decodeOperands (opcode : Nat) : Option UsonicInstr :=
  if opcode < UsonicInstr.START then Option.none
  else
    match opcode - UsonicInstr.START with
    | 0 => some .ckNxIRo
    | 1 => some .ckNxIAo
    | 2 => some .ckNxORo
    | 3 => some .ckNxOAo
    | 4 => some .ldW
    | 5 => some .ldIW
    | 6 => some .ldIL
    | 7 => some .ldIT
    | 8 => some .ldIRo
    | 9 => some .ldIAo
    | 10 => some .ldORo
    | 11 => some .ldOAo
    | 12 => some .rstIRo
    | 13 => some .rstIAo
    | 14 => some .rstORo
    | 15 => some .rstOAo
    | _ => Option.none

/-!
## Byte-level helper lemmas
-/

/-- Encoding zero gives a zero byte list. -/
lemma toLeBytes_zero (w : Nat) : toLeBytes w 0 = List.replicate w 0 := by
  induction w with
  | zero => rfl
  | succ w ih => simp [toLeBytes, ih, List.replicate]

/-- Little-endian decode of a byte list re-encodes to the same list, padded
with zero bytes up to the requested width. -/
lemma toLeBytes_fromLeBytes (b : List Nat) :
    ∀ w, b.length ≤ w → (∀ x ∈ b, x < 256) →
      toLeBytes w (fromLeBytes b) = b ++ List.replicate (w - b.length) 0 := by
  induction b with
  | nil => intro w _ _; simpa [fromLeBytes] using toLeBytes_zero w
  | cons x xs ih =>
    intro w hw hlt
    match w, hw with
    | w + 1, hw =>
      have hx : x < 256 := hlt x (by simp)
      have hxs : ∀ y ∈ xs, y < 256 := fun y hy => hlt y (by simp [hy])
      have hmod : (x + 256 * fromLeBytes xs) % 256 = x := by
        rw [Nat.add_mul_mod_self_left, Nat.mod_eq_of_lt hx]
      have hdiv : (x + 256 * fromLeBytes xs) / 256 = fromLeBytes xs := by
        rw [Nat.add_mul_div_left _ _ (by norm_num : (0 : ℕ) < 256),
          Nat.div_eq_of_lt hx, Nat.zero_add]
      have hlen : xs.length ≤ w := by simpa using Nat.succ_le_succ_iff.mp (by simpa using hw)
      simp only [fromLeBytes, List.foldr] at *
      simp only [toLeBytes, hmod, hdiv]
      rw [ih w hlen hxs]
      simp [List.length_cons, Nat.succ_sub_succ]

/-!
## Claims
-/

/-- C7: for every `Operation`, `Operation::id()` equals the tagged
commitment that absorbs, in order: the version byte, the contract id, the
call id, the nonce, and the Merkle roots of `destructible_in`,
`immutable_in`, `destructible_out` and `immutable_out`. -/
theorem operation_opid_is_ordered_commitment (op : Operation) :
    op.opid = Opid.commit Opid.TAG
      [Absorption.ser SerVal.reservedByte,
        Absorption.ser (SerVal.contractId op.contractId),
        Absorption.ser (SerVal.callId op.callId),
        Absorption.ser (SerVal.fe op.nonce),
        Absorption.merkleInputs op.destructibleIn,
        Absorption.merkleAddrs op.immutableIn,
        Absorption.merkleCells op.destructibleOut,
        Absorption.merkleData op.immutableOut] := rfl

/-- C8: for every `Issue`, `Issue::contract_id()` equals the tagged
commitment absorbing, in order: the issue version byte, the contract
metadata, the codex id (the commitment to the codex, not the raw codex),
and the opid of the genesis promoted to an `Operation` under the
placeholder contract id whose 32 bytes are all `0xFF` (the value
`2^256 - 1` read little-endian). -/
theorem issue_contract_id_commitment (iss : Issue) :
    iss.contractId = ContractCommit.mk ContractIdTAG
      [Absorption.ser SerVal.reservedByte,
        Absorption.ser (SerVal.meta iss.meta),
        Absorption.ser (SerVal.codexId iss.codex.codexId),
        Absorption.ser
          (SerVal.opid ((iss.genesis.toOperation placeholderContractId).opid))] ∧
    iss.codex.codexId = CodexId.commit CodexId.TAG iss.codex ∧
    placeholderContractId = 2 ^ 256 - 1 :=
  ⟨rfl, rfl, rfl⟩

/-- C9: every USONIC instruction has a one-byte encoding whose opcode lies
in the contiguous range `128..=143` (which is exactly `op_range`), carries
zero operand bytes and zero extension-data bytes, and decoding the encoded
opcode returns the same instruction. -/
theorem usonic_bytecode_roundtrip :
    UsonicInstr.opRange = (128, 143) ∧
    ∀ i : UsonicInstr,
      128 ≤ i.opcodeByte ∧ i.opcodeByte ≤ 143 ∧
      i.codeByteLen = 1 ∧
      i.encode = [i.opcodeByte] ∧
      i.opDataBytes = 0 ∧
      i.extDataBytes = 0 ∧
      UsonicInstr.decodeOperands i.opcodeByte = some i := by
  refine ⟨rfl, ?_⟩
  intro i
  cases i <;> exact ⟨by decide, by decide, rfl, rfl, rfl, rfl, by decide⟩

/-- C10: for every 30-byte array `b`,
`AuthToken::from_byte_array(b).to_byte_array() == b`, and the field element
`to_fe256` of the constructed token has its two most significant bytes
(the last two little-endian bytes) equal to zero. -/
theorem auth_token_byte_roundtrip (b : List Nat) (hlen : b.length = 30)
    (hlt : ∀ x ∈ b, x < 256) :
    (AuthToken.fromByteArray b).toByteArray = b ∧
    (toLeBytes 32 (AuthToken.fromByteArray b).toFe256).drop 30 = [0, 0] := by
  have hlt' : ∀ x ∈ b ++ [0, 0], x < 256 := by
    intro x hx
    rcases List.mem_append.mp hx with h | h
    · exact hlt x h
    · simp at h; omega
  have hlen' : (b ++ [0, 0]).length = 32 := by simp [hlen]
  have henc : toLeBytes 32 (fromLeBytes (b ++ [0, 0])) = b ++ [0, 0] := by
    rw [toLeBytes_fromLeBytes (b ++ [0, 0]) 32 (le_of_eq hlen') hlt', hlen']
    simp
  constructor
  · show (toLeBytes 32 (fromLeBytes (b ++ [0, 0]))).take 30 = b
    rw [henc, ← hlen, List.take_left]
  · show (toLeBytes 32 (fromLeBytes (b ++ [0, 0]))).drop 30 = [0, 0]
    rw [henc, ← hlen, List.drop_left]

/-- Witness for C10: the round-trip and high-byte facts evaluated at the
concrete 30-byte array `[7, 7, …, 7]`. -/
theorem auth_token_byte_roundtrip_witness :
    (AuthToken.fromByteArray (List.replicate 30 7)).toByteArray = List.replicate 30 7 ∧
    (toLeBytes 32 (AuthToken.fromByteArray (List.replicate 30 7)).toFe256).drop 30 =
      [0, 0] :=
  auth_token_byte_roundtrip (List.replicate 30 7) (by simp)
    (by intro x hx; have := List.eq_of_mem_replicate hx; omega)

/-- C4: if the operation's contract id differs from the `contract_id`
argument, `Codex::verify` returns `WrongContract{expected, found}`;
the result is the same for every memory, library repository and VM
behaviour, i.e. no VM is instantiated, no memory read and no verifier
entry point looked up before the check. -/
theorem verify_wrong_contract (codex : Codex) (contractId : ContractId)
    (operation : Operation) (memory : Memory)
    (execLock : GfaCore → LibSite → Status × GfaCore)
    (execMain : LibSite → CodexVmContext → Status × GfaCore)
    (h : operation.contractId ≠ contractId) :
    codex.verify contractId operation memory execLock execMain =
      .error (.wrongContract contractId operation.contractId) := by
  unfold Codex.verify
  rw [if_pos h]

/-- Witness for C4: a concrete operation bound to contract 1 verified
against contract 0. -/
theorem verify_wrong_contract_witness :
    (Codex.mk () "" "" 0 0 ⟨true, Option.none⟩ ⟨true, Option.none⟩ []).verify 0
        (Operation.mk () 1 0 0 [] [] [] [])
        (Memory.mk (fun _ => Option.none) (fun _ => Option.none))
        (fun vm _ => (Status.ok, vm)) (fun _ _ => (Status.ok, GfaCore.initial)) =
      .error (.wrongContract 0 1) :=
  verify_wrong_contract _ _ _ _ _ _ (by decide)

/-- C1: once the contract-binding check and Phase 1 pass and an entry point
exists for `operation.call_id`, `Codex::verify` returns
`Ok(VerifiedOperation)` whose opid is `operation.id()` exactly when the
main VM run returns `Ok`; when it returns `Fail`, the result is
`Script(e)` if register `E1` holds `e` after the run, and
`ScriptUnspecified` if `E1` is unset. -/
theorem verify_main_script_outcome (codex : Codex) (contractId : ContractId)
    (operation : Operation) (memory : Memory)
    (execLock : GfaCore → LibSite → Status × GfaCore)
    (execMain : LibSite → CodexVmContext → Status × GfaCore)
    (vm : GfaCore) (destructibleInputs immutableInputs : List StateValue)
    (entryPoint : LibSite)
    (hbind : operation.contractId = contractId)
    (hph1 : Codex.phase1Destructible memory execLock operation.destructibleIn
      GfaCore.initial [] = .ok (vm, destructibleInputs))
    (hph2 : Codex.phase1Immutable memory operation.immutableIn [] = .ok immutableInputs)
    (hep : codex.getVerifier operation.callId = some entryPoint) :
    (∀ vmMain, execMain entryPoint
        ⟨destructibleInputs, immutableInputs, operation.destructibleOut,
          operation.immutableOut⟩ = (Status.ok, vmMain) →
      codex.verify contractId operation memory execLock execMain =
        .ok (VerifiedOperation.mk operation.opid operation)) ∧
    (∀ vmMain e, execMain entryPoint
        ⟨destructibleInputs, immutableInputs, operation.destructibleOut,
          operation.immutableOut⟩ = (Status.fail, vmMain) →
      vmMain.get RegE.E1 = some e →
      codex.verify contractId operation memory execLock execMain =
        .error (.script e)) ∧
    (∀ vmMain, execMain entryPoint
        ⟨destructibleInputs, immutableInputs, operation.destructibleOut,
          operation.immutableOut⟩ = (Status.fail, vmMain) →
      vmMain.get RegE.E1 = Option.none →
      codex.verify contractId operation memory execLock execMain =
        .error .scriptUnspecified) := by
  subst hbind
  have hverify : codex.verify operation.contractId operation memory execLock execMain =
      (match execMain entryPoint
          ⟨destructibleInputs, immutableInputs, operation.destructibleOut,
            operation.immutableOut⟩ with
        | (Status.ok, _) => Except.ok (VerifiedOperation.mk operation.opid operation)
        | (Status.fail, vmM) =>
          match vmM.get RegE.E1 with
          | some e => Except.error (CallError.script e)
          | Option.none => Except.error CallError.scriptUnspecified) := by
    unfold Codex.verify
    rw [if_neg (fun hne => hne rfl), hph1, hph2, hep]
  refine ⟨?_, ?_, ?_⟩
  · intro vmMain hrun
    rw [hverify, hrun]
  · intro vmMain e hrun he1
    rw [hverify, hrun]
    show (match vmMain.get RegE.E1 with
      | some e => Except.error (CallError.script e)
      | Option.none => Except.error CallError.scriptUnspecified) = _
    rw [he1]
  · intro vmMain hrun he1
    rw [hverify, hrun]
    show (match vmMain.get RegE.E1 with
      | some e => Except.error (CallError.script e)
      | Option.none => Except.error CallError.scriptUnspecified) = _
    rw [he1]

/-- Witness for C1: the `Ok` branch evaluated on a concrete empty operation
with one registered verifier and a main VM that succeeds. -/
theorem verify_main_script_outcome_witness :
    (Codex.mk () "" "" 0 0 ⟨true, Option.none⟩ ⟨true, Option.none⟩
        [(0, LibSite.mk 0 0 StateValue.none)]).verify 5
        (Operation.mk () 5 0 0 [] [] [] [])
        (Memory.mk (fun _ => Option.none) (fun _ => Option.none))
        (fun vm _ => (Status.ok, vm)) (fun _ _ => (Status.ok, GfaCore.initial)) =
      Except.ok (VerifiedOperation.mk (Operation.mk () 5 0 0 [] [] [] []).opid
        (Operation.mk () 5 0 0 [] [] [] [])) :=
  (verify_main_script_outcome
    (Codex.mk () "" "" 0 0 ⟨true, Option.none⟩ ⟨true, Option.none⟩
      [(0, LibSite.mk 0 0 StateValue.none)])
    5 (Operation.mk () 5 0 0 [] [] [] [])
    (Memory.mk (fun _ => Option.none) (fun _ => Option.none))
    (fun vm _ => (Status.ok, vm)) (fun _ _ => (Status.ok, GfaCore.initial))
    GfaCore.initial [] [] (LibSite.mk 0 0 StateValue.none)
    rfl rfl rfl rfl).1 GfaCore.initial rfl

/-- A prefix of destructible inputs that all resolve to unlocked cells is
consumed by Phase 1 without error, only extending the accumulator. -/
lemma phase1Destructible_skip_resolved (memory : Memory)
    (f : GfaCore → LibSite → Status × GfaCore) :
    ∀ pre : List Input,
      (∀ i ∈ pre, ∃ cell,
        memory.destructible i.addr = some cell ∧ cell.lock = Option.none) →
      ∀ tail vm acc, ∃ acc',
        Codex.phase1Destructible memory f (pre ++ tail) vm acc =
          Codex.phase1Destructible memory f tail vm acc' := by
  intro pre
  induction pre with
  | nil => intro _ tail vm acc; exact ⟨acc, rfl⟩
  | cons p pre ih =>
    intro hpre tail vm acc
    obtain ⟨cell, hsome, hlock⟩ := hpre p (by simp)
    have hstep : Codex.phase1Destructible memory f ((p :: pre) ++ tail) vm acc =
        Codex.phase1Destructible memory f (pre ++ tail) vm (acc ++ [cell.data]) := by
      simp only [List.cons_append, Codex.phase1Destructible, hsome, hlock]
      rfl
    rw [hstep]
    exact ih (fun i hi => hpre i (by simp [hi])) tail vm (acc ++ [cell.data])

/-- If every earlier destructible input resolves to an unlocked cell and
the next one is absent from memory, Phase 1 stops with
`NoReadOnceInput` at that input's address. -/
lemma phase1Destructible_first_missing (memory : Memory)
    (f : GfaCore → LibSite → Status × GfaCore) (pre : List Input) (inp : Input)
    (post : List Input)
    (hpre : ∀ i ∈ pre, ∃ cell,
      memory.destructible i.addr = some cell ∧ cell.lock = Option.none)
    (hmiss : memory.destructible inp.addr = Option.none) (vm : GfaCore)
    (acc : List StateValue) :
    Codex.phase1Destructible memory f (pre ++ inp :: post) vm acc =
      .error (.noReadOnceInput inp.addr) := by
  obtain ⟨acc', hskip⟩ :=
    phase1Destructible_skip_resolved memory f pre hpre (inp :: post) vm acc
  rw [hskip]
  simp only [Codex.phase1Destructible, hmiss]

/-- If every destructible input resolves to an unlocked cell, Phase 1
succeeds and returns the entry register file unchanged. -/
lemma phase1Destructible_all_resolved (memory : Memory)
    (f : GfaCore → LibSite → Status × GfaCore) (ds : List Input)
    (h : ∀ i ∈ ds, ∃ cell,
      memory.destructible i.addr = some cell ∧ cell.lock = Option.none)
    (vm : GfaCore) (acc : List StateValue) :
    ∃ acc', Codex.phase1Destructible memory f ds vm acc = .ok (vm, acc') := by
  obtain ⟨acc', hskip⟩ :=
    phase1Destructible_skip_resolved memory f ds h [] vm acc
  rw [List.append_nil] at hskip
  exact ⟨acc', hskip⟩

/-- A prefix of immutable input addresses that all resolve is consumed by
Phase 1 without error, only extending the accumulator. -/
lemma phase1Immutable_skip_resolved (memory : Memory) :
    ∀ pre : List CellAddr,
      (∀ a ∈ pre, (memory.immutable a).isSome) →
      ∀ tail acc, ∃ acc',
        Codex.phase1Immutable memory (pre ++ tail) acc =
          Codex.phase1Immutable memory tail acc' := by
  intro pre
  induction pre with
  | nil => intro _ tail acc; exact ⟨acc, rfl⟩
  | cons a pre ih =>
    intro hpre tail acc
    obtain ⟨v, hv⟩ := Option.isSome_iff_exists.mp (hpre a (by simp))
    have hstep : Codex.phase1Immutable memory ((a :: pre) ++ tail) acc =
        Codex.phase1Immutable memory (pre ++ tail) (acc ++ [v]) := by
      simp only [List.cons_append, Codex.phase1Immutable, hv]
      rfl
    rw [hstep]
    exact ih (fun a' ha' => hpre a' (by simp [ha'])) tail (acc ++ [v])

/-- If every earlier immutable input address resolves and the next one is
absent from memory, Phase 1 stops with `NoImmutableInput` at that
address. -/
lemma phase1Immutable_first_missing (memory : Memory) (pre : List CellAddr)
    (addr : CellAddr) (post : List CellAddr)
    (hpre : ∀ a ∈ pre, (memory.immutable a).isSome)
    (hmiss : memory.immutable addr = Option.none) (acc : List StateValue) :
    Codex.phase1Immutable memory (pre ++ addr :: post) acc =
      .error (.noImmutableInput addr) := by
  obtain ⟨acc', hskip⟩ := phase1Immutable_skip_resolved memory pre hpre (addr :: post) acc
  rw [hskip]
  simp only [Codex.phase1Immutable, hmiss]

/-- C2: for a destructible input whose resolved cell is locked, Phase 1
sets `E1` to the cell's auth token, loads up to four witness elements into
`E2..E5` (stopping at the first absent element and leaving the higher
registers untouched), and executes the lock site on that register file; a
failing run yields `Lock(E8)` where `E8` is read from the post-run file.
For an unlocked cell, Phase 1 records `cell.data` without executing any VM
on that input (the step is the same for every lock-execution function). -/
theorem phase1_lock_semantics (memory : Memory)
    (execLock : GfaCore → LibSite → Status × GfaCore)
    (input : Input) (rest : List Input) (vm : GfaCore) (acc : List StateValue)
    (cell : StateCell) (hcell : memory.destructible input.addr = some cell) :
    (∀ site, cell.lock = some site →
      ∀ vm1, vm1 = loadWitnessRegs [RegE.E2, RegE.E3, RegE.E4, RegE.E5] 0 input.witness
          (vm.put RegE.E1 (some cell.auth.toFe256)) →
      (vm1.get RegE.E1 = some cell.auth.toFe256 ∧
        (vm1.get RegE.E2 =
          if (input.witness.get 0).isSome then input.witness.get 0 else vm.get RegE.E2) ∧
        (vm1.get RegE.E3 =
          if (input.witness.get 1).isSome then input.witness.get 1 else vm.get RegE.E3) ∧
        (vm1.get RegE.E4 =
          if (input.witness.get 2).isSome then input.witness.get 2 else vm.get RegE.E4) ∧
        (vm1.get RegE.E5 =
          if (input.witness.get 3).isSome then input.witness.get 3 else vm.get RegE.E5)) ∧
      (∀ vm2, execLock vm1 site = (Status.fail, vm2) →
        Codex.phase1Destructible memory execLock (input :: rest) vm acc =
          .error (.lock (vm2.get RegE.E8))) ∧
      (∀ vm2, execLock vm1 site = (Status.ok, vm2) →
        Codex.phase1Destructible memory execLock (input :: rest) vm acc =
          Codex.phase1Destructible memory execLock rest GfaCore.initial
            (acc ++ [cell.data])) ∧
      (∀ vm2, execLock vm1 site = (Status.fail, vm2) →
        ∀ (codex : Codex) (contractId : ContractId) (operation : Operation)
          (execMain : LibSite → CodexVmContext → Status × GfaCore)
          (pre post : List Input),
          operation.contractId = contractId →
          operation.destructibleIn = pre ++ input :: post →
          (∀ i ∈ pre, ∃ c,
            memory.destructible i.addr = some c ∧ c.lock = Option.none) →
          vm = GfaCore.initial →
          codex.verify contractId operation memory execLock execMain =
            .error (.lock (vm2.get RegE.E8)))) ∧
    (cell.lock = Option.none →
      ∀ f : GfaCore → LibSite → Status × GfaCore,
        Codex.phase1Destructible memory f (input :: rest) vm acc =
          Codex.phase1Destructible memory f rest vm (acc ++ [cell.data])) := by
  obtain ⟨addr, w⟩ := input
  constructor
  · intro site hsite vm1 hvm1
    refine ⟨?_, ?_, ?_, ?_⟩
    · subst hvm1
      cases w <;>
        simp [loadWitnessRegs, StateValue.get, GfaCore.get, GfaCore.put, Input.witness]
    · intro vm2 hrun
      simp only [Codex.phase1Destructible, hcell, hsite]
      rw [← hvm1, hrun]
    · intro vm2 hrun
      simp only [Codex.phase1Destructible, hcell, hsite]
      rw [← hvm1, hrun]
    · intro vm2 hrun codex contractId operation execMain pre post hbindOp hds hpre hvm
      subst hbindOp
      subst hvm
      unfold Codex.verify
      rw [if_neg (fun hne => hne rfl), hds]
      obtain ⟨acc', hskip⟩ := phase1Destructible_skip_resolved memory execLock pre hpre
        (Input.mk addr w :: post) GfaCore.initial []
      rw [hskip]
      have hstep : Codex.phase1Destructible memory execLock (Input.mk addr w :: post)
          GfaCore.initial acc' = .error (.lock (vm2.get RegE.E8)) := by
        simp only [Codex.phase1Destructible, hcell, hsite]
        rw [← hvm1, hrun]
      rw [hstep]
  · intro hnone f
    simp only [Codex.phase1Destructible, hcell, hnone]

/-- Witness for C2: a concrete locked input whose lock run fails with
`E8 = 9`, turning Phase 1 into `Lock(Some(9))`. -/
theorem phase1_lock_semantics_witness :
    Codex.phase1Destructible
        (Memory.mk
          (fun _ => some (StateCell.mk (StateValue.single 7) (AuthToken.mk 48)
            (some (LibSite.mk 3 1 StateValue.none))))
          (fun _ => Option.none))
        (fun vmIn _ => (Status.fail, vmIn.put RegE.E8 (some 9)))
        [Input.mk (CellAddr.mk (Opid.commit "" []) 0) (StateValue.single 42)]
        GfaCore.initial [] =
      .error (.lock (some 9)) :=
  ((phase1_lock_semantics
      (Memory.mk
        (fun _ => some (StateCell.mk (StateValue.single 7) (AuthToken.mk 48)
          (some (LibSite.mk 3 1 StateValue.none))))
        (fun _ => Option.none))
      (fun vmIn _ => (Status.fail, vmIn.put RegE.E8 (some 9)))
      (Input.mk (CellAddr.mk (Opid.commit "" []) 0) (StateValue.single 42))
      [] GfaCore.initial []
      (StateCell.mk (StateValue.single 7) (AuthToken.mk 48)
        (some (LibSite.mk 3 1 StateValue.none)))
      rfl).1 (LibSite.mk 3 1 StateValue.none) rfl _ rfl).2.1 _ rfl

/-- C5: `Codex::verify` processes `destructible_in` in index order and
then `immutable_in` in index order; the first destructible input address
that memory fails to resolve returns `NoReadOnceInput` immediately, and —
with all destructible inputs resolving — the first unresolvable immutable
address returns `NoImmutableInput`.  The result is independent of the VM
behaviour and of memory at every later address, so no later input is
examined after the first failure. -/
theorem verify_input_order_short_circuit (codex : Codex) (contractId : ContractId)
    (operation : Operation) (memory : Memory)
    (execLock : GfaCore → LibSite → Status × GfaCore)
    (execMain : LibSite → CodexVmContext → Status × GfaCore)
    (hbind : operation.contractId = contractId) :
    (∀ pre inp post, operation.destructibleIn = pre ++ inp :: post →
      (∀ i ∈ pre, ∃ cell,
        memory.destructible i.addr = some cell ∧ cell.lock = Option.none) →
      memory.destructible inp.addr = Option.none →
      codex.verify contractId operation memory execLock execMain =
        .error (.noReadOnceInput inp.addr)) ∧
    (∀ pre addr post, operation.immutableIn = pre ++ addr :: post →
      (∀ i ∈ operation.destructibleIn, ∃ cell,
        memory.destructible i.addr = some cell ∧ cell.lock = Option.none) →
      (∀ a ∈ pre, (memory.immutable a).isSome) →
      memory.immutable addr = Option.none →
      codex.verify contractId operation memory execLock execMain =
        .error (.noImmutableInput addr)) := by
  subst hbind
  constructor
  · intro pre inp post hds hpre hmiss
    have herr := phase1Destructible_first_missing memory execLock pre inp post hpre hmiss
      GfaCore.initial []
    unfold Codex.verify
    rw [if_neg (fun hne => hne rfl), hds, herr]
  · intro pre addr post his hds hpre hmiss
    obtain ⟨dvals, hok⟩ := phase1Destructible_all_resolved memory execLock
      operation.destructibleIn hds GfaCore.initial []
    have herr := phase1Immutable_first_missing memory pre addr post hpre hmiss []
    unfold Codex.verify
    rw [if_neg (fun hne => hne rfl), hok, his, herr]

/-- Witness for C5: a concrete operation with a single destructible input
absent from memory fails with `NoReadOnceInput` at its address. -/
theorem verify_input_order_short_circuit_witness :
    (Codex.mk () "" "" 0 0 ⟨true, Option.none⟩ ⟨true, Option.none⟩ []).verify 3
        (Operation.mk () 3 0 0
          [Input.mk (CellAddr.mk (Opid.commit "w" []) 1) StateValue.none] [] [] [])
        (Memory.mk (fun _ => Option.none) (fun _ => Option.none))
        (fun vmIn _ => (Status.ok, vmIn)) (fun _ _ => (Status.ok, GfaCore.initial)) =
      .error (.noReadOnceInput (CellAddr.mk (Opid.commit "w" []) 1)) :=
  (verify_input_order_short_circuit
    (Codex.mk () "" "" 0 0 ⟨true, Option.none⟩ ⟨true, Option.none⟩ [])
    3
    (Operation.mk () 3 0 0
      [Input.mk (CellAddr.mk (Opid.commit "w" []) 1) StateValue.none] [] [] [])
    (Memory.mk (fun _ => Option.none) (fun _ => Option.none))
    (fun vmIn _ => (Status.ok, vmIn)) (fun _ _ => (Status.ok, GfaCore.initial))
    rfl).1 [] (Input.mk (CellAddr.mk (Opid.commit "w" []) 1) StateValue.none) []
    rfl (by simp) rfl

/-- C6: for every I/O category and VM context, `load` succeeds iff a state
value exists at the current `UI[cat]` index; on success it writes the
value's elements into `EA..ED` (clearing the registers beyond the value's
length, since `StateValue::get` is `None` there) and increments `UI[cat]`
by exactly one, leaving the other iterators unchanged; on failure every
`UI` register is unchanged; `reset(cat)` zeroes `UI[cat]` and nothing
else; and the `cknx*` instructions (`has_data`) leave the whole extension
core — in particular every `UI` register — unchanged. -/
theorem usonic_iterator_semantics (cat : IoCat) (ctx : VmContext) (core : UsonicCore) :
    ((core.load cat ctx).1 = (ctx.stateValue cat (core.ui cat.index)).isSome) ∧
    (∀ v, ctx.stateValue cat (core.ui cat.index) = some v →
      ((core.load cat ctx).2.gfa.get RegE.EA = v.get 0 ∧
        (core.load cat ctx).2.gfa.get RegE.EB = v.get 1 ∧
        (core.load cat ctx).2.gfa.get RegE.EC = v.get 2 ∧
        (core.load cat ctx).2.gfa.get RegE.ED = v.get 3) ∧
      (core.load cat ctx).2.ui cat.index = core.ui cat.index + 1 ∧
      (∀ i : Fin 4, i ≠ cat.index → (core.load cat ctx).2.ui i = core.ui i)) ∧
    (ctx.stateValue cat (core.ui cat.index) = Option.none →
      (core.load cat ctx).2.ui = core.ui) ∧
    ((core.resetCat cat).ui cat.index = 0 ∧
      (∀ i : Fin 4, i ≠ cat.index → (core.resetCat cat).ui i = core.ui i)) ∧
    (∀ c : Core,
      (UsonicInstr.ckNxIRo.exec c ctx).cx = c.cx ∧
      (UsonicInstr.ckNxIAo.exec c ctx).cx = c.cx ∧
      (UsonicInstr.ckNxORo.exec c ctx).cx = c.cx ∧
      (UsonicInstr.ckNxOAo.exec c ctx).cx = c.cx) := by
  refine ⟨rfl, ?_, ?_, ⟨?_, ?_⟩, ?_⟩
  · intro v hv
    refine ⟨⟨?_, ?_, ?_, ?_⟩, ?_, ?_⟩ <;>
      simp [UsonicCore.load, UsonicCore.loadInternal, UsonicCore.setEaEd,
        GfaCore.get, GfaCore.put, hv]
  · intro hv
    simp [UsonicCore.load, UsonicCore.loadInternal, UsonicCore.setEaEd, hv]
  · simp [UsonicCore.resetCat]
  · intro i hi
    simp [UsonicCore.resetCat, hi]
  · intro c
    exact ⟨rfl, rfl, rfl, rfl⟩

/-- Witness for C6: loading the single immutable input `Single(5)` at
iterator position 0 puts `5` into `EA` and advances `UI[IN_AO]` to 1. -/
theorem usonic_iterator_semantics_witness :
    (((UsonicCore.mk (fun _ => 0) GfaCore.initial).load IoCat.IN_AO
        (VmContext.mk StateValue.none [] [StateValue.single 5] [] [])).2.gfa.get RegE.EA =
      some 5) ∧
    ((UsonicCore.mk (fun _ => 0) GfaCore.initial).load IoCat.IN_AO
        (VmContext.mk StateValue.none [] [StateValue.single 5] [] [])).2.ui
      IoCat.IN_AO.index = 1 := by
  have h := usonic_iterator_semantics IoCat.IN_AO
    (VmContext.mk StateValue.none [] [StateValue.single 5] [] [])
    (UsonicCore.mk (fun _ => 0) GfaCore.initial)
  obtain ⟨-, hsucc, -⟩ := h
  have h5 := hsucc (StateValue.single 5) rfl
  exact ⟨h5.1.1, h5.2.1⟩

/-- C3 (evaluation at the failing input): on a concrete operation with one
destructible input resolving to an unlocked cell holding `Single(7)`, the
context `Codex::verify` hands to the main VM is the four-field
`CodexVmContext` whose `destructible_input` is the bare state value
`[Single(7)]` (the resolved `cell.data`), with no operation-level witness
and no `(Input, StateCell)` pairing — unlike the five-field `VmContext`
declared in `src/isa/exec.rs`, which the claim (and the spec) describe. -/
theorem codex_phase2_context_shape
    (execMain : LibSite → CodexVmContext → Status × GfaCore) :
    (Codex.mk () "" "" 0 0 ⟨true, Option.none⟩ ⟨true, Option.none⟩
        [(0, LibSite.mk 4 0 StateValue.none)]).verify 2
        (Operation.mk () 2 0 0
          [Input.mk (CellAddr.mk (Opid.commit "g" []) 0) StateValue.none] [] [] [])
        (Memory.mk
          (fun _ => some (StateCell.mk (StateValue.single 7) (AuthToken.mk 1) Option.none))
          (fun _ => Option.none))
        (fun vmIn _ => (Status.ok, vmIn)) execMain =
      (match execMain (LibSite.mk 4 0 StateValue.none)
          (CodexVmContext.mk [StateValue.single 7] [] [] []) with
        | (Status.ok, _) =>
          Except.ok (VerifiedOperation.mk
            (Operation.mk () 2 0 0
              [Input.mk (CellAddr.mk (Opid.commit "g" []) 0) StateValue.none]
              [] [] []).opid
            (Operation.mk () 2 0 0
              [Input.mk (CellAddr.mk (Opid.commit "g" []) 0) StateValue.none]
              [] [] []))
        | (Status.fail, vmM) =>
          match vmM.get RegE.E1 with
          | some e => Except.error (CallError.script e)
          | Option.none => Except.error CallError.scriptUnspecified) := rfl

end Ultrasonic
